import Mathlib

/-!
Verification of the keyed lookup / rating-plan engine of the
`actuarial-gizmos` repository.

The Lean definitions in this file are a shallow embedding of the Python
source (`src/gzmo/...`).  Scalar cell values become an inductive `Scalar`,
pandas `Interval` endpoints become an extended-rational type `XVal`
(the wildcard endpoints `'*'` are converted to `-inf` / `+inf` by
`RatingTable.prime`, exactly as in the source), a primed `RatingTable`
becomes a list of rows keyed by `KeyCell` tuples, and the lookup paths
(`RatingTable._lookup`, `RatingTable._eval_impl`, `RatingTable._eval_reindex`,
`RatingTable._eval_match`) become executable functions on those tables.
Fallible construction (`RatingTable.__init__` / `prime`) returns `Except`.
-/

namespace Gzmo

/-- A scalar cell value of a table or query: a number, a string
(the wildcard sentinel is the string `"*"`), or a boolean.
Floats are modelled as rationals. -/
inductive Scalar where
  | num (q : ℚ)
  | str (s : String)
  | bool (b : Bool)
deriving DecidableEq, Repr

/-- An interval endpoint after `prime`: the source casts interval columns to
float and replaces `'*'` by `-np.inf` (left) or `np.inf` (right), so an
endpoint is `-inf`, a finite number, or `+inf`. -/
inductive XVal where
  | ninf
  | num (q : ℚ)
  | pinf
deriving DecidableEq, Repr

/-- `lo ≤ x` for an interval's left endpoint (`pd.Interval` containment,
`closed = 'both'`). -/
def XVal.leLeft : XVal → ℚ → Bool
  | .ninf, _ => true
  | .num a, x => decide (a ≤ x)
  | .pinf, _ => false

/-- `x ≤ hi` for an interval's right endpoint (`pd.Interval` containment,
`closed = 'both'`). -/
def XVal.geRight : XVal → ℚ → Bool
  | .ninf, _ => false
  | .num b, x => decide (x ≤ b)
  | .pinf, _ => true

/-- Total order on extended endpoints; used for the `IntervalIndex.from_arrays`
requirement `left <= right` and for interval-overlap detection. -/
def XVal.le : XVal → XVal → Bool
  | .ninf, _ => true
  | _, .pinf => true
  | .num a, .num b => decide (a ≤ b)
  | _, _ => false

/-- One cell of a row's composite key after `prime`: a discrete value
(level built by `pd.Index`) or a closed interval (level built by
`pd.IntervalIndex.from_arrays(..., closed = 'both')`). -/
inductive KeyCell where
  | disc (v : Scalar)
  | intvl (lo hi : XVal)
deriving DecidableEq, Repr

/-- The wildcard sentinel of the source: `wildcard_characters = ['*']`. -/
def wildcard : Scalar := .str "*"

/-- Whether a key cell is a wildcard, per the `_wildcard_markers` computation
in `prime`: membership in `[pd.Interval(-np.inf, np.inf, closed='both'), '*']`. -/
def KeyCell.isWildcard : KeyCell → Bool
  | .disc v => v = wildcard
  | .intvl lo hi => lo = .ninf && hi = .pinf

/-- One row of a primed table: its key tuple (one cell per input dimension,
in `inputs` order) and its output values (one per output column, in
`outputs` order).  Output cells are numeric factors. -/
structure Row where
  key : List KeyCell
  out : List ℚ
deriving DecidableEq, Repr

/-- A primed `RatingTable`: ordered input dimension names, ordered output
names, and the ordered list of rows. -/
structure RatingTable where
  inputs : List String
  outputs : List String
  rows : List Row
deriving DecidableEq, Repr

/-- Marker of `RatingTable.prime`:
`self._wildcard_markers = self.index.to_frame().isin(wildcard_characters).all(axis = 1)`,
i.e. a row is marked iff EVERY key dimension is a wildcard. -/
def Row.allWildcard (r : Row) : Bool :=
  r.key.all KeyCell.isWildcard

/-- Whether a row has some wildcard dimension (the spec's notion of a
"row with a wildcard dimension"). -/
def Row.hasWildcard (r : Row) : Bool :=
  r.key.any KeyCell.isWildcard

/-- Per-dimension match of `RatingTable._lookup`:
for an `IntervalIndex` level, `lookup_column.contains(passed_input)`;
otherwise `lookup_column.isin(self.wildcard_characters + [passed_input])`. -/
def cellMatches : KeyCell → Scalar → Bool
  | .disc v, q => v = wildcard || v = q
  | .intvl lo hi, .num x => lo.leLeft x && hi.geRight x
  | .intvl _ _, _ => false

/-- A row matches a query iff every dimension matches
(`np.all(matches, axis = 0)` in `_lookup`). -/
def rowMatches (r : Row) (q : List Scalar) : Bool :=
  (r.key.zip q).all fun p => cellMatches p.1 p.2

/-- `RatingTable._lookup` over a given lookup table (`lookup_table` argument):
the first row (original table order) whose every dimension matches is
returned as the dict `{output name: value}` (`matching_rows.iloc[0].to_dict()`,
the columns of a primed table being exactly its outputs); if no row matches,
the dict `{k: None for k in self.inputs}` is returned — keyed by the INPUT
names. -/
def lookupIn (t : RatingTable) (tbl : List Row) (q : List Scalar) :
    List (String × Option ℚ) :=
  match tbl.find? (fun r => rowMatches r q) with
  | some r => t.outputs.zip (r.out.map some)
  | none => t.inputs.map fun i => (i, none)

/-- `RatingTable._lookup` with the default `lookup_table = self`. -/
def lookup (t : RatingTable) (q : List Scalar) : List (String × Option ℚ) :=
  lookupIn t t.rows q

/-- First value stored under a key in an association list (`dict` access). -/
def assocFind {α : Type} (l : List (String × α)) (k : String) : Option α :=
  (l.find? fun p => p.1 == k).map fun p => p.2

/-! ## Construction: `RatingTable.__init__` / `RatingTable.prime`

The raw tabular source is a list of named columns (a parsed spreadsheet
sheet).  `prime` classifies columns by the naming convention
(`_name_left`/`_name_right` pairs form one interval input, other `_name`
columns are discrete inputs, `name_` columns are outputs), converts interval
wildcards `'*'` to `∓inf` and casts the endpoints to float, builds the
composite key, and keeps only the output columns. -/

/-- One raw column: its header name and its cells. -/
structure RawColumn where
  name : String
  cells : List Scalar
deriving DecidableEq, Repr

/-- A raw tabular source, as handed to `RatingTable.__init__`. -/
structure RawTable where
  cols : List RawColumn
deriving DecidableEq, Repr

/-- `s.startswith(p)` on header names. -/
def strStarts (s p : String) : Bool := p.data.isPrefixOf s.data

/-- `s.endswith(p)` on header names. -/
def strEnds (s p : String) : Bool := p.data.isSuffixOf s.data

/-- `s[n:]` on header names. -/
def strDrop (s : String) (n : Nat) : String := ⟨s.data.drop n⟩

/-- `s[:-n]` on header names. -/
def strDropRight (s : String) (n : Nat) : String := ⟨s.data.take (s.data.length - n)⟩

/-- Column classification of `prime`: `c.startswith('_') and c.endswith('_left')`. -/
def isLeftCol (c : String) : Bool := strStarts c "_" && strEnds c "_left"

/-- Column classification of `prime`: `c.startswith('_') and c.endswith('_right')`. -/
def isRightCol (c : String) : Bool := strStarts c "_" && strEnds c "_right"

/-- Column classification of `prime`: any other `c.startswith('_')` column is a
discrete input. -/
def isInputCol (c : String) : Bool := strStarts c "_"

/-- Column classification of `prime`: a non-input column with `c.endswith('_')`
is an output. -/
def isOutputCol (c : String) : Bool := !strStarts c "_" && strEnds c "_"

/-- The cleaned dimension name of an interval column:
`c[1:].replace('_left', '').replace('_right', '')`.  (The source removes the
substrings anywhere; conventional headers carry them only as a suffix.) -/
def cleanedIntervalName (c : String) : String := strDropRight (strDrop c 1) 5

/-- The ordered input names and the subset that are interval inputs, from
prime's first loop over the columns (`_right` columns add no input). -/
def primeInputs (cols : List RawColumn) : List String × List String :=
  cols.foldl
    (fun acc c =>
      if isLeftCol c.name then
        let cleaned := cleanedIntervalName c.name
        (acc.1 ++ [cleaned], acc.2 ++ [cleaned])
      else if isRightCol c.name then acc
      else if isInputCol c.name then (acc.1 ++ [strDrop c.name 1], acc.2)
      else acc)
    ([], [])

/-- The ordered output names (trailing `_` stripped), from prime's first loop. -/
def primeOutputs (cols : List RawColumn) : List String :=
  cols.foldl
    (fun acc c => if isOutputCol c.name then acc ++ [strDropRight c.name 1] else acc)
    []

/-- First column with a given header (pandas column access by name). -/
def findCol (cols : List RawColumn) (n : String) : Option (List Scalar) :=
  (cols.find? fun c => c.name == n).map fun c => c.cells

/-- `self[c].replace('*', -np.inf).astype(float)` on one left-endpoint cell.
Booleans cast to 0/1; a non-wildcard string cannot be cast (the model treats
it as the float-cast failure). -/
def toLeftBound : Scalar → Except String XVal
  | .str s => if s = "*" then .ok .ninf else .error "could not convert string to float"
  | .num q => .ok (.num q)
  | .bool b => .ok (.num (if b then 1 else 0))

/-- `self[c].replace('*', np.inf).astype(float)` on one right-endpoint cell. -/
def toRightBound : Scalar → Except String XVal
  | .str s => if s = "*" then .ok .pinf else .error "could not convert string to float"
  | .num q => .ok (.num q)
  | .bool b => .ok (.num (if b then 1 else 0))

/-- The key cells of one input dimension, from prime's index-building loop:
interval inputs assert both endpoint columns exist and build
`pd.IntervalIndex.from_arrays(left, right, closed = 'both')` (which requires
`left <= right` on every row); discrete inputs take the `_c` column as-is. -/
def primeLevel (cols : List RawColumn) (intervalNames : List String) (c : String) :
    Except String (List KeyCell) :=
  if intervalNames.contains c then
    match findCol cols ("_" ++ c ++ "_left"), findCol cols ("_" ++ c ++ "_right") with
    | some ls, some rs => do
        let lbs ← ls.mapM toLeftBound
        let rbs ← rs.mapM toRightBound
        if (lbs.zip rbs).all fun p => XVal.le p.1 p.2 then
          .ok ((lbs.zip rbs).map fun p => KeyCell.intvl p.1 p.2)
        else
          .error "left side of interval must be <= right side"
    | _, _ => .error "Missing column for interval input"
  else
    match findCol cols ("_" ++ c) with
    | some cs => .ok (cs.map KeyCell.disc)
    | none => .error "KeyError"

/-- The values of one output column.  Output cells are modelled as numeric
factors (the claims only concern numeric outputs). -/
def toOutVal : Scalar → Except String ℚ
  | .num q => .ok q
  | _ => .error "non-numeric output"

/-- Fetch and convert one output column (header = name + `'_'`). -/
def primeOutLevel (cols : List RawColumn) (o : String) : Except String (List ℚ) :=
  match findCol cols (o ++ "_") with
  | some cs => cs.mapM toOutVal
  | none => .error "KeyError"

/-- Number of data rows (length of the first column; a DataFrame is
rectangular). -/
def nRows (rt : RawTable) : Nat :=
  match rt.cols with
  | [] => 0
  | c :: _ => c.cells.length

/-- Reassemble the per-dimension levels and per-output columns into rows. -/
def primeRows (levels : List (List KeyCell)) (outs : List (List ℚ)) (n : Nat) :
    List Row :=
  (List.range n).map fun i =>
    ⟨levels.map fun l => l.getD i (KeyCell.disc (.str "")),
     outs.map fun l => l.getD i 0⟩

/-- `RatingTable.__init__` + `prime`: the whole construction path.  Note that
it performs NO duplicate-key check of any kind: the only failure modes are
ragged data, a missing interval endpoint column (the `assert` in `prime`),
an endpoint that cannot be cast to float, an inverted interval, or a
non-numeric output cell. -/
def prime (rt : RawTable) : Except String RatingTable :=
  if rt.cols.all (fun c => c.cells.length == nRows rt) then
    let ins := primeInputs rt.cols
    let outs := primeOutputs rt.cols
    match ins.1.mapM (primeLevel rt.cols ins.2), outs.mapM (primeOutLevel rt.cols) with
    | .ok levels, .ok outvals => .ok ⟨ins.1, outs, primeRows levels outvals (nRows rt)⟩
    | .error e, _ => .error e
    | .ok _, .error e => .error e
  else
    .error "ragged columns"

/-- `RatingTable.evaluate` on a single named-value bundle passed as a dict
(`evaluate({'credit_tier': 'F1'})` or keyword arguments): the source calls
`self._lookup(**args[0])`, which reads `passed_inputs[input_name]` for each
input — a missing input raises `KeyError`. -/
def evaluateDict (t : RatingTable) (qd : List (String × Scalar)) :
    Except String (List (String × Option ℚ)) :=
  match (t.inputs.map fun i => assocFind qd i).mapM id with
  | some q => .ok (lookup t q)
  | none => .error "KeyError"

/-! ## Batch evaluation: `_eval_impl`, `_eval_reindex`, `_eval_match`

A batch of inputs is a list of query rows (each aligned with `t.inputs`),
indexed by position — the pandas row index of the input table.  A batch
result row is one `Option ℚ` per output column (`None`/`NaN` = no value). -/

/-- `pd.DataFrame.from_records(records)[outputs]`: the result dict of one
`_lookup` call aligned to the table's output columns.  A column absent from
the record (as in the input-keyed no-match dict) becomes null. -/
def projectOutputs (outs : List String) (d : List (String × Option ℚ)) :
    List (Option ℚ) :=
  outs.map fun o => (assocFind d o).bind id

/-- `_eval_match`: row-by-row `_lookup` over a given lookup table, keeping the
input order. -/
def evalMatch (t : RatingTable) (tbl : List Row) (queries : List (List Scalar)) :
    List (List (Option ℚ)) :=
  queries.map fun q => projectOutputs t.outputs (lookupIn t tbl q)

/-- The `self.loc[(~self._wildcard_markers).values]` sub-table: rows where NOT
every dimension is a wildcard (`_wildcard_markers` uses `.all(axis = 1)`). -/
def nonWildRows (t : RatingTable) : List Row :=
  t.rows.filter fun r => !r.allWildcard

/-- The `self.loc[self._wildcard_markers]` sub-table: rows where every
dimension is a wildcard. -/
def wildRows (t : RatingTable) : List Row :=
  t.rows.filter Row.allWildcard

/-- Per-dimension match of `df.reindex` label lookup: a discrete level matches
only the exact stored label (no wildcard semantics), an interval level
matches by containment. -/
def reindexCellMatch : KeyCell → Scalar → Bool
  | .disc v, q => v = q
  | .intvl lo hi, .num x => lo.leLeft x && hi.geRight x
  | .intvl _ _, _ => false

/-- Reindex match of a whole key tuple. -/
def reindexRowMatch (r : Row) (q : List Scalar) : Bool :=
  (r.key.zip q).all fun p => reindexCellMatch p.1 p.2

/-- One result row of `_eval_reindex`: the outputs of the row whose index
label matches the query tuple, else all-null.  (On a unique, non-overlapping
index — the only case where reindex does not raise — at most one row can
match, so taking the first is exact.) -/
def reindexRow (t : RatingTable) (tbl : List Row) (q : List Scalar) :
    List (Option ℚ) :=
  match tbl.find? (fun r => reindexRowMatch r q) with
  | some r => r.out.map some
  | none => t.outputs.map fun _ => none

/-- Nonempty intersection of two closed key intervals. -/
def cellsOverlap : KeyCell → KeyCell → Bool
  | .intvl lo1 hi1, .intvl lo2 hi2 => XVal.le lo1 hi2 && XVal.le lo2 hi1
  | _, _ => false

/-- Two DISTINCT overlapping intervals (two rows sharing the same interval
label contribute a single label to the level, which is not overlapping). -/
def distinctOverlap (c d : KeyCell) : Bool :=
  decide (c ≠ d) && cellsOverlap c d

/-- Some unordered pair of the list satisfies `p`. -/
def anyPairB {α : Type} : List α → (α → α → Bool) → Bool
  | [], _ => false
  | x :: xs, p => xs.any (p x) || anyPairB xs p

/-- Some element occurs twice. -/
def hasDupB {α : Type} [DecidableEq α] : List α → Bool
  | [] => false
  | x :: xs => xs.contains x || hasDupB xs

/-- Whether the bulk `reindex` of `_eval_reindex` raises, per its docstring
and pandas semantics: a non-unique index (duplicate key tuples) or a level
holding two distinct overlapping intervals cannot be reindexed.  The
`except:` in `_eval_impl` then degrades to `_eval_match` over the whole
table. -/
def bulkFails (rows : List Row) : Bool :=
  hasDupB (rows.map Row.key) ||
    anyPairB rows fun r s => (r.key.zip s.key).any fun p => distinctOverlap p.1 p.2

/-- Positions `i, i+1, ...` attached to a list — the integer row index of the
input DataFrame. -/
def withIndexFrom {α : Type} (i : Nat) : List α → List (Nat × α)
  | [] => []
  | x :: xs => (i, x) :: withIndexFrom (i + 1) xs

/-- Label lookup in an integer-indexed intermediate result. -/
def assocN {α : Type} (l : List (Nat × α)) (i : Nat) : Option α :=
  (l.find? fun p => p.1 == i).map fun p => p.2

/-- `res_nonwildcard.fillna(res_wildcard)` on one row: each null cell is
filled from the wildcard-phase row with the same index label, when present. -/
def fillRow (base : List (Option ℚ)) (patch : Option (List (Option ℚ))) :
    List (Option ℚ) :=
  match patch with
  | none => base
  | some p =>
      (base.zip p).map fun c =>
        match c.1 with
        | some v => some v
        | none => c.2

/-- `_eval_impl`: try `_eval_reindex` on the non-wildcard sub-table; if the
bulk lookup raises, degrade to `_eval_match` over the entire table.
Otherwise, rows whose non-wildcard result is entirely null
(`res_nonwildcard.isna().all(axis = 1)`) are re-resolved by `_eval_match`
against the wildcard sub-table, the two results are merged by `fillna`
(aligned on the input index), and the result keeps the caller's row order
(`res.loc[input_table.index]`). -/
def evalImpl (t : RatingTable) (queries : List (List Scalar)) :
    List (List (Option ℚ)) :=
  let nw := nonWildRows t
  if bulkFails nw then
    evalMatch t t.rows queries
  else
    let resNon := queries.map (reindexRow t nw)
    let indexed := withIndexFrom 0 (queries.zip resNon)
    let misses := indexed.filter fun p => p.2.2.all Option.isNone
    let resW := misses.map fun p =>
      (p.1, projectOutputs t.outputs (lookupIn t (wildRows t) p.2.1))
    indexed.map fun p => fillRow p.2.2 (assocN resW p.1)

/-- Single-row semantics actually implemented by the batch path (defined for
comparison with the per-row `_lookup` semantics): on the bulk path, exact
reindex against the non-wildcard sub-table with wildcard-sub-table fallback
for all-null rows; on the degraded path, `_lookup` against the whole table. -/
def batchRow (t : RatingTable) (q : List Scalar) : List (Option ℚ) :=
  if bulkFails (nonWildRows t) then
    projectOutputs t.outputs (lookupIn t t.rows q)
  else
    let r := reindexRow t (nonWildRows t) q
    if r.all Option.isNone then
      fillRow r (some (projectOutputs t.outputs (lookupIn t (wildRows t) q)))
    else
      r

/-! ## Concrete tables used by the claims -/

/-- Raw source of a one-input string table whose wildcard row comes FIRST:
`_credit_tier = ['*', 'F1']`, `factor_ = [3.0, 1.0]`. -/
def rawWildFirst : RawTable :=
  ⟨[⟨"_credit_tier", [.str "*", .str "F1"]⟩, ⟨"factor_", [.num 3, .num 1]⟩]⟩

/-- The primed table of `rawWildFirst`. -/
def tableWildFirst : RatingTable :=
  ⟨["credit_tier"], ["factor"],
   [⟨[.disc (.str "*")], [3]⟩, ⟨[.disc (.str "F1")], [1]⟩]⟩

/-! ## `RatingPlan.rate` and the dependency graph

`RatingPlan.rate` (src/gzmo/rating/rating_plan.py:46-51) is a plain loop:
`for rating_step_name, rating_step in self.rating_steps.items(): ...` —
steps are evaluated in dict insertion (registration) order, with no
dependency tracking of any kind.  (The method cannot actually run as
written: `rating_steps` is never initialized and both `add_rating_step` and
`RatingStep.rate` are called with the wrong arity; the realized order of
the loop is what the embedding models.) -/

/-- A rating step as the scheduler claims see it: its name and its declared
input and output names. -/
structure RStep where
  name : String
  inputs : List String
  outputs : List String
deriving DecidableEq, Repr

/-- The realized evaluation order of `RatingPlan.rate`: dict insertion
order. -/
def rateOrder (steps : List RStep) : List String :=
  steps.map RStep.name

/-- Modelled from the spec: the dependency-graph edge relation of §3
("an edge from B to A exists iff A's declared inputs intersect B's declared
outputs (or B's own name)") — no graph construction exists in src. -/
def producesFor (b a : RStep) : Bool :=
  a.inputs.any fun i => b.outputs.contains i || b.name == i

/-- Modelled from the spec: an execution order is a valid topological order
of the dependency graph iff every producer precedes every consumer — no
scheduler exists in src. -/
def isTopoOrder (steps : List RStep) (ord : List String) : Prop :=
  ∀ a ∈ steps, ∀ b ∈ steps,
    producesFor b a = true → ord.indexOf b.name < ord.indexOf a.name

/-! ## `AccessLogger` (src/gzmo/base.py:276-397) -/

/-- Models the external check
`hasattr(pd.DataFrame, key) or hasattr(pd.Series, key)` on a finite sample
of well-known pandas attribute names (the check consults the pandas library,
an external collaborator). -/
def pandasAttrNames : List String :=
  ["sum", "mean", "max", "min", "count", "abs", "index", "columns", "values",
   "shape", "head", "tail", "apply", "get", "loc", "iloc", "join", "merge"]

/-- Membership in the modelled pandas attribute surface. -/
def isPandasAttr (s : String) : Bool :=
  pandasAttrNames.contains s

/-- The recording proxy: the shared `accessed` set (modelled as a
duplicate-free list), the `root` path, and the configured `depth`. -/
structure AccessLogger where
  accessed : List (List String)
  root : List String
  depth : Nat
deriving DecidableEq, Repr

/-- A key passed to `AccessLogger.get` (via `__getattr__` / `__getitem__`):
a plain name, a list of names, or another `AccessLogger`. -/
inductive AKey where
  | attr (s : String)
  | keys (ks : List String)
  | logger
deriving DecidableEq, Repr

/-- `self.accessed |= {path}` (set insertion). -/
def insertPath (s : List (List String)) (p : List String) : List (List String) :=
  if s.contains p then s else s ++ [p]

/-- `self.accessed |= {*paths}`. -/
def insertPaths (s : List (List String)) (ps : List (List String)) :
    List (List String) :=
  ps.foldl insertPath s

/-- `str(key)` for a list key.  (Python also quotes the elements; the claims
never inspect this string.) -/
def pyListRepr (ks : List String) : String :=
  "[" ++ String.intercalate ", " ks ++ "]"

/-- `AccessLogger.get`: within depth, an `AccessLogger` key returns `self`
unrecorded, a list key records one extended path per element and returns a
child rooted at `root + (str(key),)`, and a plain name returns `self`
unrecorded when it is a pandas DataFrame/Series attribute name and otherwise
records the extended path and returns a child rooted there.  At or beyond
depth, `self` is returned and nothing is recorded.  A child is constructed
as `AccessLogger(self.accessed, path_to_current)` — its depth is the
DEFAULT `1`, not the parent's. -/
def AccessLogger.get (l : AccessLogger) (k : AKey) : AccessLogger :=
  if l.root.length < l.depth then
    match k with
    | .logger => l
    | .keys ks =>
        { accessed := insertPaths l.accessed (ks.map fun ki => l.root ++ [ki]),
          root := l.root ++ [pyListRepr ks],
          depth := 1 }
    | .attr s =>
        if isPandasAttr s then l
        else
          { accessed := insertPath l.accessed (l.root ++ [s]),
            root := l.root ++ [s],
            depth := 1 }
  else
    l

/-! ## The dictionary classes: `DotDict`, `FancyDict`, `SearchableDict`
(src/gzmo/base.py), `Book` (src/gzmo/core.py), `Info`
(src/gzmo/core/utils.py), `RatingResults`
(src/gzmo/rating/rating_results.py)

Values are modelled by `PVal`: Python `None`, booleans, numbers, strings,
and nested containers (dicts with string keys; DataFrame children are
modelled as containers of their columns). -/

/-- A Python value held in one of the dictionary classes. -/
inductive PVal where
  | pnone
  | pbool (b : Bool)
  | pnum (q : ℚ)
  | pstr (s : String)
  | pdict (es : List (String × PVal))

/-- `dict.get(key)`: the first stored value under the key, if present. -/
def assocP (es : List (String × PVal)) (k : String) : Option PVal :=
  (es.find? fun p => p.1 == k).map fun p => p.2

/-- `dict.get(key, default)` — the plain `get` a `DotDict` inherits: the
STORED value is returned even when it is `None`. -/
def ddGet (es : List (String × PVal)) (k : String) (default : PVal) : PVal :=
  match assocP es k with
  | some v => v
  | none => default

/-- `DotDict.__getattr__` on a plain `DotDict`: `self.get(key)` is the plain
dict lookup; a result that `is not None` is returned, anything else raises
`AttributeError` (modelled as `.error ()`). -/
def ddGetattr (es : List (String × PVal)) (k : String) : Except Unit PVal :=
  match assocP es k with
  | some v => match v with
      | .pnone => .error ()
      | _ => .ok v
  | none => .error ()

mutual

/-- `FancyDict.get` (with default `None`), as the recursive search
`val.get(key)` sees it: on a container, try the own keys first (a stored
`None` falls through), then loop over the child values, recursing into child
containers (non-container children raise `AttributeError`/`TypeError`,
which the loop swallows).  `some v` means `get` found the non-`None`
value `v`. -/
def fdGetOpt : PVal → String → Option PVal
  | .pdict es, k =>
      (match assocP es k with
       | some v => match v with
           | .pnone => fdLoop es k
           | _ => some v
       | none => fdLoop es k)
  | _, _ => none

/-- The `for val in self.values(): ... val.get(key)` loop of
`FancyDict.get`. -/
def fdLoop : List (String × PVal) → String → Option PVal
  | [], _ => none
  | (_, v) :: rest, k =>
      match fdGetOpt v k with
      | some r => some r
      | none => fdLoop rest k

end

/-- `FancyDict.get(key, default)`. -/
def fdGet (es : List (String × PVal)) (k : String) (default : PVal) : PVal :=
  match fdGetOpt (.pdict es) k with
  | some v => v
  | none => default

/-- `DotDict.__getattr__` as inherited by a `FancyDict`: `self.get(key)`
dispatches to the recursive `FancyDict.get`. -/
def fdGetattr (es : List (String × PVal)) (k : String) : Except Unit PVal :=
  match fdGetOpt (.pdict es) k with
  | some v => .ok v
  | none => .error ()

/-- The `for k, v in self.items(): ... to_search.get(key)` loop shared by
`SearchableDict.get`, `Book.get` and `Info.get`: each child is probed with
its own (plain, for the modelled dict children) `get`; a present-but-`None`
child value falls through.  In `Book.get`/`Info.get` only `TypeError` is
caught around this loop, so a child without a `get` attribute raises
`AttributeError` out of the call (`.error ()`).  `SearchableDict.get`
catches `(TypeError, AttributeError)` per child, so there such children are
skipped instead. -/
def childLoopStrict : List (String × PVal) → String → Except Unit (Option PVal)
  | [], _ => .ok none
  | (_, v) :: rest, k =>
      match v with
      | .pdict es2 =>
          (match assocP es2 k with
           | some r => match r with
               | .pnone => childLoopStrict rest k
               | _ => .ok (some r)
           | none => childLoopStrict rest k)
      | _ => .error ()

/-- The same child loop with `except (AttributeError, TypeError): pass`
around each probe (`SearchableDict.get`): non-container children are
skipped. -/
def childLoopSkip : List (String × PVal) → String → Option PVal
  | [], _ => none
  | (_, v) :: rest, k =>
      match v with
      | .pdict es2 =>
          (match assocP es2 k with
           | some r => match r with
               | .pnone => childLoopSkip rest k
               | _ => some r
           | none => childLoopSkip rest k)
      | _ => childLoopSkip rest k

/-- `Book.get(key)` on a single string key (default arguments:
`raise_ = True`): own keys first (a stored `None` falls through), then the
child loop; when nothing is found, `raise AttributeError` (`.error ()`). -/
def bookGet (b : List (String × PVal)) (k : String) : Except Unit PVal :=
  let fallback :=
    match childLoopStrict b k with
    | .error _ => .error ()
    | .ok (some r) => .ok r
    | .ok none => .error ()
  match assocP b k with
  | some v => match v with
      | .pnone => fallback
      | _ => .ok v
  | none => fallback

/-- `Book.__getattr__`: `if (ret := self.get(name) is not None): return ret`
— the walrus binds the BOOLEAN `self.get(name) is not None`, so a
successful lookup returns `True`; `get` itself raises for a missing name. -/
def bookGetattr (b : List (String × PVal)) (k : String) : Except Unit PVal :=
  match bookGet b k with
  | .ok _ => .ok (.pbool true)
  | .error e => .error e

/-- `Info.get(key)` on a single string key (default `raise_ = False`): as
`Book.get` but a miss returns the default `None`. -/
def infoGet (b : List (String × PVal)) (k : String) : Except Unit (Option PVal) :=
  let fallback :=
    match childLoopStrict b k with
    | .error _ => .error ()
    | .ok r => .ok r
  match assocP b k with
  | some v => match v with
      | .pnone => fallback
      | _ => .ok (some v)
  | none => fallback

/-- `Info.__getattr__`: the same walrus bug —
`if (ret := self.get(name) is not None):` returns `True` on success and
raises `AttributeError` when `get` returned `None`. -/
def infoGetattr (b : List (String × PVal)) (k : String) : Except Unit PVal :=
  match infoGet b k with
  | .ok (some _) => .ok (.pbool true)
  | .ok none => .error ()
  | .error e => .error e

/-- `RatingResults.get(key)`: own keys first (a stored `None` falls
through), then `for df in self.values(): try: return df[key] except
KeyError: pass` — a present child column is returned even when it holds
`None`; a non-container child raises `TypeError` (uncaught, `.error ()`);
a full miss returns the default `None`. -/
def rrChild : List (String × PVal) → String → Except Unit (Option PVal)
  | [], _ => .ok none
  | (_, v) :: rest, k =>
      match v with
      | .pdict es2 =>
          (match assocP es2 k with
           | some r => .ok (some r)
           | none => rrChild rest k)
      | _ => .error ()

/-- `RatingResults.get(key)` (default `None`). -/
def rrGet (b : List (String × PVal)) (k : String) : Except Unit (Option PVal) :=
  match assocP b k with
  | some v => match v with
      | .pnone => rrChild b k
      | _ => .ok (some v)
  | none => rrChild b k

/-- `RatingResults.__getattr__`:
`if ret := self.get(name) is not None:` — the walrus binds the boolean, so a
non-`None` result yields `True` and anything else raises
`AttributeError`. -/
def rrGetattr (b : List (String × PVal)) (k : String) : Except Unit PVal :=
  match rrGet b k with
  | .ok (some v) => match v with
      | .pnone => .error ()
      | _ => .ok (.pbool true)
  | .ok none => .error ()
  | .error e => .error e

/-- `SearchableDict.get(key)` on a string key (defaults `default = None`,
`raise_ = True`): `super().get(key)` is the FULL recursive `FancyDict.get`,
then the own child loop (probes modelled with plain-dict `get`, exceptions
swallowed per child), then `raise AttributeError` for an unfound string key
— the supplied default is only reachable with `raise_ = False`. -/
def sdGet (b : List (String × PVal)) (k : String) (raiseFlag : Bool)
    (default : PVal) : Except Unit PVal :=
  match fdGetOpt (.pdict b) k with
  | some v => .ok v
  | none =>
      match childLoopSkip b k with
      | some r => .ok r
      | none => if raiseFlag then .error () else .ok default

/-! ## `InterpolatedTable` -/

/-- Modelled from the spec: no `InterpolatedTable` exists anywhere in the
repository source; spec §4.2 describes linear interpolation of the output
over the union of stored keys and query keys, with extrapolation beyond the
stored range along the boundary slope.  Per query value this reduces to
piecewise-linear evaluation: the slope of one stored segment. -/
def slopeOf (p q : ℚ × ℚ) : ℚ :=
  (q.2 - p.2) / (q.1 - p.1)

/-- Modelled from the spec: the line through segment `(p, q)` evaluated at
`x`. -/
def interpSeg (p q : ℚ × ℚ) (x : ℚ) : ℚ :=
  p.2 + (x - p.1) * slopeOf p q

/-- Modelled from the spec: evaluate an `InterpolatedTable` with stored
points `pts` (sorted by key) at the query `x`.  A query left of the second
point (including any query below the minimum key) uses the first segment's
slope; a query right of the last segment's left end (including any query
above the maximum key) uses the last segment's slope; fewer than two stored
points leave no slope to use. -/
def interpolate : List (ℚ × ℚ) → ℚ → Option ℚ
  | p :: q :: rest, x =>
      if x ≤ q.1 || rest.isEmpty then some (interpSeg p q x)
      else interpolate (q :: rest) x
  | _, _ => none

/-! # Theorems -/

/-- `List.find?` returns the element at position `i` when it satisfies the
predicate and no earlier element does. -/
theorem find?_at_first_index {α : Type} (p : α → Bool) :
    ∀ (l : List α) (i : Nat) (hi : i < l.length),
      p (l.get ⟨i, hi⟩) = true →
      (∀ j (hj : j < l.length), j < i → p (l.get ⟨j, hj⟩) = false) →
      l.find? p = some (l.get ⟨i, hi⟩) := by
  intro l
  induction l with
  | nil => intro i hi; exact absurd hi (by simp)
  | cons x xs ih =>
    intro i hi hp hfirst
    cases i with
    | zero =>
      simp only [List.get] at hp ⊢
      simp [List.find?_cons_of_pos, hp]
    | succ n =>
      have hx : p x = false := hfirst 0 (by simp) (Nat.succ_pos n)
      rw [List.find?_cons_of_neg _ (by simp [hx])]
      exact ih n (Nat.lt_of_succ_lt_succ hi) hp
        (fun j hj hlt => hfirst (j + 1) (Nat.succ_lt_succ hj) (Nat.succ_lt_succ hlt))

/-- Claim C1, corrected: on a single-bundle query, `evaluate`/`_lookup`
returns the outputs of the FIRST row in original table order whose every
dimension matches — whether or not that row is a wildcard row.  No
specificity preference exists on this path (the counterexample below shows
a wildcard row beating a later non-wildcard row); in particular a matching
non-wildcard row wins only when no matching row precedes it. -/
theorem single_lookup_first_match (t : RatingTable) (q : List Scalar) (i : Nat)
    (hi : i < t.rows.length)
    (hm : rowMatches (t.rows.get ⟨i, hi⟩) q = true)
    (hfirst : ∀ j (hj : j < t.rows.length), j < i →
      rowMatches (t.rows.get ⟨j, hj⟩) q = false) :
    lookup t q = t.outputs.zip ((t.rows.get ⟨i, hi⟩).out.map some) := by
  unfold lookup lookupIn
  rw [find?_at_first_index _ t.rows i hi hm hfirst]

/-- Witness for C1's theorem: on `tableWildFirst`, the first matching row is
the wildcard row at index 0, and `_lookup` returns its outputs. -/
theorem single_lookup_first_match_witness :
    lookup tableWildFirst [.str "F1"] = [("factor", some 3)] :=
  (single_lookup_first_match tableWildFirst [.str "F1"] 0 (by decide) (by decide)
    (fun j hj hlt => absurd hlt (Nat.not_lt_zero j))).trans (by rfl)

/-- Counterexample to claim C1 as stated: in `tableWildFirst` the wildcard
row precedes the non-wildcard row, both match the query `'F1'`, and
`evaluate` on the single bundle returns the WILDCARD row's outputs (3.0),
not the non-wildcard row's (1.0) — the non-wildcard row does not win
"regardless of the relative order of those rows". -/
theorem wildcard_order_counterexample :
    prime rawWildFirst = .ok tableWildFirst ∧
    tableWildFirst.rows = [⟨[.disc wildcard], [3]⟩, ⟨[.disc (.str "F1")], [1]⟩] ∧
    rowMatches ⟨[.disc wildcard], [3]⟩ [.str "F1"] = true ∧
    Row.hasWildcard ⟨[.disc wildcard], [3]⟩ = true ∧
    rowMatches ⟨[.disc (.str "F1")], [1]⟩ [.str "F1"] = true ∧
    Row.hasWildcard ⟨[.disc (.str "F1")], [1]⟩ = false ∧
    evaluateDict tableWildFirst [("credit_tier", .str "F1")] = .ok [("factor", some 3)] ∧
    (some (3 : ℚ) ≠ some (1 : ℚ)) :=
  ⟨rfl, rfl, rfl, rfl, rfl, rfl, rfl, by decide⟩

/-- Raw source with two identical, wildcard-free key tuples. -/
def rawPair (s : String) (x y : ℚ) : RawTable :=
  ⟨[⟨"_c", [.str s, .str s]⟩, ⟨"f_", [.num x, .num y]⟩]⟩

/-- The primed table of `rawPair`. -/
def pairTable (s : String) (x y : ℚ) : RatingTable :=
  ⟨["c"], ["f"], [⟨[.disc (.str s)], [x]⟩, ⟨[.disc (.str s)], [y]⟩]⟩

/-- Claim C2, corrected: construction does NOT reject duplicate keys.  For
every duplicated non-wildcard key value, `__init__`/`prime` succeeds (its
only failure modes are structural: missing interval endpoint columns,
un-castable endpoints, inverted intervals, ragged/non-numeric data), so a
successfully constructed table may well contain wildcard-free rows with
identical key tuples. -/
theorem duplicate_keys_accepted (s : String) (x y : ℚ) (hs : s ≠ "*") :
    prime (rawPair s x y) = .ok (pairTable s x y) ∧
    hasDupB ((pairTable s x y).rows.map Row.key) = true ∧
    (pairTable s x y).rows.all (fun r => !r.hasWildcard) = true := by
  refine ⟨rfl, by simp [pairTable, hasDupB], ?_⟩
  have hsw : Scalar.str s ≠ wildcard := by simp [wildcard, hs]
  simp [pairTable, Row.hasWildcard, KeyCell.isWildcard, hsw]

/-- Witness for C2's theorem at the concrete key `'F1'`. -/
theorem duplicate_keys_accepted_witness :
    prime (rawPair "F1" 1 2) = .ok (pairTable "F1" 1 2) ∧
    hasDupB ((pairTable "F1" 1 2).rows.map Row.key) = true ∧
    (pairTable "F1" 1 2).rows.all (fun r => !r.hasWildcard) = true :=
  duplicate_keys_accepted "F1" 1 2 (by decide)

/-- Counterexample to claim C2 as stated: a table whose data holds two rows
with no wildcard in any dimension and identical key tuples constructs
WITHOUT failure. -/
theorem duplicate_keys_construction_counterexample :
    prime (RawTable.mk [⟨"_c", [.str "F1", .str "F1"]⟩, ⟨"f_", [.num 1, .num 2]⟩])
      = .ok ⟨["c"], ["f"], [⟨[.disc (.str "F1")], [1]⟩, ⟨[.disc (.str "F1")], [2]⟩]⟩ ∧
    hasDupB [[KeyCell.disc (.str "F1")], [KeyCell.disc (.str "F1")]] = true ∧
    Row.hasWildcard ⟨[.disc (.str "F1")], [1]⟩ = false :=
  ⟨rfl, rfl, rfl⟩

/-- Raw source of a one-row table used for the no-match behavior. -/
def rawSingle : RawTable :=
  ⟨[⟨"_credit_tier", [.str "A1"]⟩, ⟨"factor_", [.num 1]⟩]⟩

/-- The primed table of `rawSingle`. -/
def tableSingle : RatingTable :=
  ⟨["credit_tier"], ["factor"], [⟨[.disc (.str "A1")], [1]⟩]⟩

/-- Claim C3 (code bug): on a query matching no row, `evaluate`/`_lookup`
does return without raising, but the null result it builds is
`{k: None for k in self.inputs}` — one null per INPUT name — not one null
per declared OUTPUT name as the claim (and the rest of the pipeline, which
aligns on output columns) requires. -/
theorem no_match_returns_input_keyed_nulls :
    prime rawSingle = .ok tableSingle ∧
    tableSingle.inputs = ["credit_tier"] ∧
    tableSingle.outputs = ["factor"] ∧
    evaluateDict tableSingle [("credit_tier", .str "Z9")] = .ok [("credit_tier", none)] ∧
    [("credit_tier", (none : Option ℚ))] ≠ [("factor", (none : Option ℚ))] :=
  ⟨rfl, rfl, rfl, rfl, by decide⟩

/-- Dropping the attached indices recovers the original list. -/
theorem withIndexFrom_map_snd {α : Type} :
    ∀ (i : Nat) (l : List α), (withIndexFrom i l).map Prod.snd = l := by
  intro i l
  induction l generalizing i with
  | nil => rfl
  | cons x xs ih => simp [withIndexFrom, ih]

/-- Every attached index is at least the starting index. -/
theorem mem_withIndexFrom_ge {α : Type} :
    ∀ (l : List α) (i : Nat) (p : Nat × α), p ∈ withIndexFrom i l → i ≤ p.1 := by
  intro l
  induction l with
  | nil => intro i p h; simp [withIndexFrom] at h
  | cons x xs ih =>
    intro i p h
    simp only [withIndexFrom, List.mem_cons] at h
    rcases h with h | h
    · rw [h]
    · have := ih (i + 1) p h; omega

/-- The attached indices are pairwise distinct. -/
theorem withIndexFrom_firsts_nodup {α : Type} :
    ∀ (l : List α) (i : Nat), ((withIndexFrom i l).map Prod.fst).Nodup := by
  intro l
  induction l with
  | nil => intro i; simp [withIndexFrom]
  | cons x xs ih =>
    intro i
    simp only [withIndexFrom, List.map_cons, List.nodup_cons]
    refine ⟨?_, ih (i + 1)⟩
    intro hmem
    simp only [List.mem_map] at hmem
    obtain ⟨p, hp, hpi⟩ := hmem
    have := mem_withIndexFrom_ge xs (i + 1) p hp
    omega

/-- An indexed element's payload belongs to the original list. -/
theorem mem_withIndexFrom_snd {α : Type} :
    ∀ (l : List α) (i : Nat) (p : Nat × α), p ∈ withIndexFrom i l → p.2 ∈ l := by
  intro l
  induction l with
  | nil => intro i p h; simp [withIndexFrom] at h
  | cons x xs ih =>
    intro i p h
    simp only [withIndexFrom, List.mem_cons] at h
    rcases h with h | h
    · rw [h]; exact List.mem_cons_self x xs
    · exact List.mem_cons_of_mem x (ih (i + 1) p h)

/-- In `l.zip (l.map f)`, the second component is `f` of the first. -/
theorem mem_zip_self_map {α β : Type} (f : α → β) :
    ∀ (l : List α) (p : α × β), p ∈ l.zip (l.map f) → p.2 = f p.1 := by
  intro l
  induction l with
  | nil => intro p h; simp at h
  | cons x xs ih =>
    intro p h
    simp only [List.map_cons, List.zip_cons_cons, List.mem_cons] at h
    rcases h with h | h
    · rw [h]
    · exact ih p h

/-- `assocN` misses on an index that occurs nowhere in the source list. -/
theorem assocN_not_mem {β γ : Type} (f : Nat × β → Bool) (g : Nat × β → γ) :
    ∀ (l : List (Nat × β)) (j : Nat), j ∉ l.map Prod.fst →
      assocN ((l.filter f).map fun r => (r.1, g r)) j = none := by
  intro l
  induction l with
  | nil => intro j _; rfl
  | cons x xs ih =>
    intro j hj
    simp only [List.map_cons, List.mem_cons, not_or] at hj
    obtain ⟨hjx, hjxs⟩ := hj
    cases hf : f x with
    | true =>
      rw [List.filter_cons_of_pos hf]
      simp only [List.map_cons, assocN, List.find?_cons]
      have : (x.1 == j) = false := by simp [Ne.symm hjx]
      rw [this]
      exact ih j hjxs
    | false =>
      rw [List.filter_cons_of_neg (by simp [hf])]
      exact ih j hjxs

/-- `assocN` on the index-keyed, filtered-and-mapped list recovers, for each
member of a list with pairwise-distinct indices, exactly its own (possibly
absent) entry. -/
theorem assocN_filter_map {β γ : Type} (f : Nat × β → Bool) (g : Nat × β → γ) :
    ∀ (l : List (Nat × β)), (l.map Prod.fst).Nodup → ∀ p ∈ l,
      assocN ((l.filter f).map fun r => (r.1, g r)) p.1
        = if f p then some (g p) else none := by
  intro l
  induction l with
  | nil => intro _ p hp; simp at hp
  | cons x xs ih =>
    intro hnd p hp
    simp only [List.map_cons, List.nodup_cons] at hnd
    obtain ⟨hx, hnd2⟩ := hnd
    simp only [List.mem_cons] at hp
    rcases hp with hp | hp
    · subst hp
      cases hf : f p with
      | true =>
        rw [List.filter_cons_of_pos hf]
        simp [assocN, List.find?_cons]
      | false =>
        rw [List.filter_cons_of_neg (by simp [hf])]
        exact assocN_not_mem f g xs p.1 hx
    · have hp1 : p.1 ∈ xs.map Prod.fst := List.mem_map_of_mem Prod.fst hp
      have hne : (x.1 == p.1) = false := by
        simp only [beq_eq_false_iff_ne, ne_eq]
        intro h; exact hx (h ▸ hp1)
      cases hf : f x with
      | true =>
        rw [List.filter_cons_of_pos hf]
        simp only [List.map_cons, assocN, List.find?_cons, hne]
        exact ih hnd2 p hp
      | false =>
        rw [List.filter_cons_of_neg (by simp [hf])]
        exact ih hnd2 p hp

/-- Claim C4, corrected: batch evaluation does serve every row through the
staged pipeline and reassembles the results in the caller's original row
order, and it equals the per-row function `batchRow` — but `batchRow` is
NOT the single-bundle `_lookup` semantics.  On the bulk path each row is
served by exact reindex against the sub-table of rows that are not
entirely-wildcard (so there wildcard rows only act as fallback for all-null
rows), while `_lookup` returns the first matching row in table order; the
two disagree whenever a matching wildcard row precedes a matching
non-wildcard row (see the counterexample).  Only the degraded path (bulk
lookup impossible) reproduces `_lookup` row by row. -/
theorem batch_eval_rowwise (t : RatingTable) (queries : List (List Scalar)) :
    evalImpl t queries = queries.map (batchRow t) := by
  unfold evalImpl batchRow
  cases hb : bulkFails (nonWildRows t) with
  | true => simp only [hb, if_true, evalMatch]
  | false =>
    simp only [hb, Bool.false_eq_true, if_false]
    have hstep1 :
        (withIndexFrom 0 (queries.zip (queries.map (reindexRow t (nonWildRows t))))).map
            (fun p =>
              fillRow p.2.2
                (assocN
                  (((withIndexFrom 0
                        (queries.zip (queries.map (reindexRow t (nonWildRows t))))).filter
                      (fun p => p.2.2.all Option.isNone)).map
                    (fun p => (p.1, projectOutputs t.outputs (lookupIn t (wildRows t) p.2.1))))
                  p.1))
          = (withIndexFrom 0 (queries.zip (queries.map (reindexRow t (nonWildRows t))))).map
            (fun p =>
              if (reindexRow t (nonWildRows t) p.2.1).all Option.isNone then
                fillRow (reindexRow t (nonWildRows t) p.2.1)
                  (some (projectOutputs t.outputs (lookupIn t (wildRows t) p.2.1)))
              else reindexRow t (nonWildRows t) p.2.1) := by
      apply List.map_congr_left
      intro p hp
      have hsnd : p.2.2 = reindexRow t (nonWildRows t) p.2.1 :=
        mem_zip_self_map _ queries p.2
          (mem_withIndexFrom_snd _ 0 p hp)
      have hassoc :=
        assocN_filter_map (fun p => p.2.2.all Option.isNone)
          (fun p => projectOutputs t.outputs (lookupIn t (wildRows t) p.2.1))
          (withIndexFrom 0 (queries.zip (queries.map (reindexRow t (nonWildRows t)))))
          (withIndexFrom_firsts_nodup _ 0) p hp
      rw [hassoc]
      cases hall : (reindexRow t (nonWildRows t) p.2.1).all Option.isNone with
      | true => simp only [hsnd, hall, if_true]
      | false => simp only [hsnd, hall, Bool.false_eq_true, if_false, fillRow]
    rw [hstep1]
    have hcomp :
        (withIndexFrom 0 (queries.zip (queries.map (reindexRow t (nonWildRows t))))).map
            (fun p =>
              if (reindexRow t (nonWildRows t) p.2.1).all Option.isNone then
                fillRow (reindexRow t (nonWildRows t) p.2.1)
                  (some (projectOutputs t.outputs (lookupIn t (wildRows t) p.2.1)))
              else reindexRow t (nonWildRows t) p.2.1)
          = ((withIndexFrom 0
                (queries.zip (queries.map (reindexRow t (nonWildRows t))))).map Prod.snd).map
            (fun pr =>
              if (reindexRow t (nonWildRows t) pr.1).all Option.isNone then
                fillRow (reindexRow t (nonWildRows t) pr.1)
                  (some (projectOutputs t.outputs (lookupIn t (wildRows t) pr.1)))
              else reindexRow t (nonWildRows t) pr.1) := by
      rw [List.map_map]
      rfl
    rw [hcomp, withIndexFrom_map_snd]
    have hfst : (queries.zip (queries.map (reindexRow t (nonWildRows t)))).map Prod.fst
        = queries :=
      List.map_fst_zip _ _ (by simp)
    calc (queries.zip (queries.map (reindexRow t (nonWildRows t)))).map
            (fun pr =>
              if (reindexRow t (nonWildRows t) pr.1).all Option.isNone then
                fillRow (reindexRow t (nonWildRows t) pr.1)
                  (some (projectOutputs t.outputs (lookupIn t (wildRows t) pr.1)))
              else reindexRow t (nonWildRows t) pr.1)
        = ((queries.zip (queries.map (reindexRow t (nonWildRows t)))).map Prod.fst).map
            (fun q =>
              if (reindexRow t (nonWildRows t) q).all Option.isNone then
                fillRow (reindexRow t (nonWildRows t) q)
                  (some (projectOutputs t.outputs (lookupIn t (wildRows t) q)))
              else reindexRow t (nonWildRows t) q) := by
          rw [List.map_map]; rfl
      _ = queries.map _ := by rw [hfst]

/-- Counterexample to claim C4 as stated: for the input row `'F1'` of
`tableWildFirst`, batch evaluation returns the non-wildcard row's output
(1.0), while the single-bundle matching algorithm (`_lookup`) returns the
earlier wildcard row's output (3.0) — the batch path does not return "the
same outputs the single-bundle matching algorithm would return". -/
theorem batch_vs_single_counterexample :
    evalImpl tableWildFirst [[.str "F1"]] = [[some 1]] ∧
    projectOutputs tableWildFirst.outputs (lookup tableWildFirst [.str "F1"]) = [some 3] ∧
    [some (1 : ℚ)] ≠ [some (3 : ℚ)] :=
  ⟨rfl, rfl, by decide⟩

/-- Claim C5 (code bug): `RatingPlan.rate` evaluates steps in dict insertion
order with no dependency tracking, so registering a consumer before its
producer makes the realized execution order violate topological validity:
here step `B` (which declares input `x`) is evaluated before step `A` (which
produces `x`). -/
theorem rate_order_not_topological :
    rateOrder [⟨"B", ["x"], ["y"]⟩, ⟨"A", [], ["x"]⟩] = ["B", "A"] ∧
    producesFor ⟨"A", [], ["x"]⟩ ⟨"B", ["x"], ["y"]⟩ = true ∧
    ¬ isTopoOrder [⟨"B", ["x"], ["y"]⟩, ⟨"A", [], ["x"]⟩]
        (rateOrder [⟨"B", ["x"], ["y"]⟩, ⟨"A", [], ["x"]⟩]) := by
  refine ⟨rfl, rfl, ?_⟩
  intro h
  have h2 := h ⟨"B", ["x"], ["y"]⟩ (by simp) ⟨"A", [], ["x"]⟩ (by simp) rfl
  simp [rateOrder, List.indexOf] at h2
  exact absurd h2 (by decide)

/-- Raw source of a one-row interval table `age ∈ [a, b] → out`. -/
def rawIntervalT (a b out : ℚ) : RawTable :=
  ⟨[⟨"_age_left", [.num a]⟩, ⟨"_age_right", [.num b]⟩, ⟨"factor_", [.num out]⟩]⟩

/-- The primed table of `rawIntervalT`: the interval is closed on both
ends. -/
def intervalT (a b out : ℚ) : RatingTable :=
  ⟨["age"], ["factor"], [⟨[.intvl (.num a) (.num b)], [out]⟩]⟩

set_option maxRecDepth 4000 in
/-- Claim C6, confirmed: `prime` builds interval dimensions with
`closed = 'both'`, so for every table with an interval key dimension
`[a, b]`, a single-bundle query at exactly `a` and at exactly `b` matches
the row (its outputs are returned), while a query at any value strictly
greater than `b` does not match it. -/
theorem interval_closed_both_ends (a b out q : ℚ) (hab : a ≤ b) (hq : b < q) :
    prime (rawIntervalT a b out) = .ok (intervalT a b out) ∧
    lookup (intervalT a b out) [.num a] = [("factor", some out)] ∧
    lookup (intervalT a b out) [.num b] = [("factor", some out)] ∧
    lookup (intervalT a b out) [.num q] = [("age", none)] := by
  have h1 : XVal.le (.num a) (.num b) = true := by simp [XVal.le, hab]
  refine ⟨?_, ?_, ?_, ?_⟩
  · have hlevel : primeLevel (rawIntervalT a b out).cols ["age"] "age"
        = .ok [.intvl (.num a) (.num b)] := by
      unfold primeLevel
      simp +decide [findCol, rawIntervalT, toLeftBound, toRightBound, h1, List.mapM,
        List.mapM.loop, Bind.bind, Except.bind, Pure.pure, Except.pure]
    simp only [rawIntervalT] at hlevel
    have hn1 : cleanedIntervalName "_age_left" = "age" := by decide
    have hn2 : strDropRight "factor_" 1 = "factor" := by decide
    unfold prime
    simp +decide [rawIntervalT, nRows, primeInputs, primeOutputs, List.mapM,
      List.mapM.loop, hn1, hn2, hlevel, primeOutLevel, findCol, toOutVal, primeRows,
      intervalT, Bind.bind, Except.bind, Pure.pure, Except.pure, List.getD,
      List.range_succ, List.range_zero]
  · simp [lookup, lookupIn, intervalT, rowMatches, cellMatches, XVal.leLeft,
      XVal.geRight, hab]
  · simp [lookup, lookupIn, intervalT, rowMatches, cellMatches, XVal.leLeft,
      XVal.geRight, hab]
  · simp [lookup, lookupIn, intervalT, rowMatches, cellMatches, XVal.leLeft,
      XVal.geRight, hab.trans hq.le, hq.not_le]

/-- Witness for C6's theorem at the spec's concrete table
`age ∈ [18, 20] → 1.8` and the out-of-range query `21`. -/
theorem interval_closed_both_ends_witness :
    prime (rawIntervalT 18 20 (9/5)) = .ok (intervalT 18 20 (9/5)) ∧
    lookup (intervalT 18 20 (9/5)) [.num 18] = [("factor", some (9/5))] ∧
    lookup (intervalT 18 20 (9/5)) [.num 20] = [("factor", some (9/5))] ∧
    lookup (intervalT 18 20 (9/5)) [.num 21] = [("age", none)] :=
  interval_closed_both_ends 18 20 (9/5) 21 (by norm_num) (by norm_num)

/-- Claim C7, confirmed against the spec model (no `InterpolatedTable`
exists in the source): for the stored points `(18, 1.8)` and `(20, 2.0)`,
the query `19` interpolates to `1.9`, and queries below the minimum or
above the maximum stored key return a value extrapolated along the
boundary slope `0.1` instead of failing. -/
theorem interpolation_continuity :
    interpolate [(18, 9/5), (20, 2)] 19 = some (19/10) ∧
    (∀ x : ℚ, x < 18 →
      interpolate [(18, 9/5), (20, 2)] x = some (9/5 + (x - 18) * (1/10))) ∧
    (∀ x : ℚ, 20 < x →
      interpolate [(18, 9/5), (20, 2)] x = some (2 + (x - 20) * (1/10))) := by
  refine ⟨by norm_num [interpolate, interpSeg, slopeOf], ?_, ?_⟩
  · intro x _
    simp only [interpolate, List.isEmpty_nil, Bool.or_true, if_true]
    norm_num [interpSeg, slopeOf]
  · intro x _
    simp only [interpolate, List.isEmpty_nil, Bool.or_true, if_true]
    norm_num [interpSeg, slopeOf]
    ring

/-- Witness for C7's theorem: extrapolation below the minimum at `17` and
above the maximum at `21`. -/
theorem interpolation_continuity_witness :
    interpolate [(18, 9/5), (20, 2)] 17 = some (9/5 + (17 - 18) * (1/10)) ∧
    interpolate [(18, 9/5), (20, 2)] 21 = some (2 + (21 - 20) * (1/10)) :=
  ⟨interpolation_continuity.2.1 17 (by norm_num),
   interpolation_continuity.2.2 21 (by norm_num)⟩

/-- A path just inserted is a member of the accessed set. -/
theorem mem_insertPath (s : List (List String)) (p : List String) :
    p ∈ insertPath s p := by
  unfold insertPath
  split
  · next hc => exact List.elem_iff.mp hc
  · exact List.mem_append_right s (List.mem_singleton_self p)

/-- Claim C8, corrected: within depth, an attribute/key access records the
extended path and returns a new child proxy rooted there ONLY when the name
is not a pandas DataFrame/Series attribute name; accesses of pandas
attribute names (and `AccessLogger`-valued keys) return the same logger and
record nothing even within depth.  At or beyond depth the same logger is
returned with nothing recorded, as claimed.  (A child is created with the
default depth 1, not the parent's depth.) -/
theorem access_logger_depth_behavior :
    (∀ (l : AccessLogger) (s : String), l.root.length < l.depth →
      isPandasAttr s = false →
      (l.get (.attr s)).root = l.root ++ [s] ∧
      (l.root ++ [s]) ∈ (l.get (.attr s)).accessed ∧
      (l.get (.attr s)).depth = 1) ∧
    (∀ (l : AccessLogger) (s : String), l.root.length < l.depth →
      isPandasAttr s = true → l.get (.attr s) = l) ∧
    (∀ (l : AccessLogger) (k : AKey), ¬ l.root.length < l.depth →
      l.get k = l) := by
  refine ⟨?_, ?_, ?_⟩
  · intro l s hd hp
    unfold AccessLogger.get
    rw [if_pos hd]
    simp only [hp, Bool.false_eq_true, if_false]
    simp [mem_insertPath]
  · intro l s hd hp
    unfold AccessLogger.get
    rw [if_pos hd]
    simp only [hp, if_true]
  · intro l k hd
    unfold AccessLogger.get
    rw [if_neg hd]

/-- Witness for C8's theorem: a fresh depth-1 logger records a non-pandas
name, swallows a pandas name, and an exhausted logger returns itself. -/
theorem access_logger_depth_behavior_witness :
    ((AccessLogger.get ⟨[], [], 1⟩ (.attr "zipcode")).root = [] ++ ["zipcode"] ∧
      ([] ++ ["zipcode"]) ∈ (AccessLogger.get ⟨[], [], 1⟩ (.attr "zipcode")).accessed ∧
      (AccessLogger.get ⟨[], [], 1⟩ (.attr "zipcode")).depth = 1) ∧
    AccessLogger.get ⟨[], [], 1⟩ (.attr "mean") = ⟨[], [], 1⟩ ∧
    AccessLogger.get ⟨[], ["drivers"], 1⟩ (.attr "zipcode") = ⟨[], ["drivers"], 1⟩ :=
  ⟨access_logger_depth_behavior.1 ⟨[], [], 1⟩ "zipcode" (by decide) (by decide),
   access_logger_depth_behavior.2.1 ⟨[], [], 1⟩ "mean" (by decide) (by decide),
   access_logger_depth_behavior.2.2 ⟨[], ["drivers"], 1⟩ (.attr "zipcode") (by decide)⟩

/-- Counterexample to claim C8 as stated: the access of `"sum"` (a pandas
attribute name) on a fresh logger whose root is shorter than its depth
records nothing and returns the logger itself — not a new child rooted at
`["sum"]`. -/
theorem pandas_attr_not_recorded_counterexample :
    (0 : Nat) < 1 ∧
    isPandasAttr "sum" = true ∧
    AccessLogger.get ⟨[], [], 1⟩ (.attr "sum") = ⟨[], [], 1⟩ ∧
    (AccessLogger.get ⟨[], [], 1⟩ (.attr "sum")).root ≠ ["sum"] ∧
    (AccessLogger.get ⟨[], [], 1⟩ (.attr "sum")).accessed = [] :=
  ⟨by decide, rfl, rfl, by decide, rfl⟩

/-- Claim C9, confirmed: in `Book.__getattr__`, `Info.__getattr__` and
`RatingResults.__getattr__` the walrus pattern
`ret := self.get(name) is not None` binds the COMPARISON, so whenever `get`
resolves the name to a non-`None` value the attribute access returns the
boolean `True` (never the value itself), and a name resolving to `None`
raises `AttributeError`. -/
theorem walrus_getattr_returns_true :
    (∀ (b : List (String × PVal)) (k : String) (v : PVal),
        bookGet b k = .ok v → bookGetattr b k = .ok (.pbool true)) ∧
    (∀ (b : List (String × PVal)) (k : String) (v : PVal),
        infoGet b k = .ok (some v) → infoGetattr b k = .ok (.pbool true)) ∧
    (∀ (b : List (String × PVal)) (k : String),
        infoGet b k = .ok none → infoGetattr b k = .error ()) ∧
    (∀ (b : List (String × PVal)) (k : String) (v : PVal),
        rrGet b k = .ok (some v) → v ≠ .pnone → rrGetattr b k = .ok (.pbool true)) ∧
    (∀ (b : List (String × PVal)) (k : String),
        rrGet b k = .ok (some .pnone) → rrGetattr b k = .error ()) := by
  refine ⟨?_, ?_, ?_, ?_, ?_⟩
  · intro b k v h; simp [bookGetattr, h]
  · intro b k v h; simp [infoGetattr, h]
  · intro b k h; simp [infoGetattr, h]
  · intro b k v h hv
    cases v with
    | pnone => exact absurd rfl hv
    | pbool c => simp [rrGetattr, h]
    | pnum q => simp [rrGetattr, h]
    | pstr s => simp [rrGetattr, h]
    | pdict es => simp [rrGetattr, h]
  · intro b k h; simp [rrGetattr, h]

/-- Witness for C9's theorem on concrete containers: attribute access
yields `True` instead of the stored `5`, and a `None`-resolving name
raises. -/
theorem walrus_getattr_returns_true_witness :
    bookGetattr [("k", .pnum 5)] "k" = .ok (.pbool true) ∧
    infoGetattr [("k", .pnum 5)] "k" = .ok (.pbool true) ∧
    infoGetattr [] "z" = .error () ∧
    rrGetattr [("k", .pnum 5)] "k" = .ok (.pbool true) ∧
    rrGetattr [("d", .pdict [("k", .pnone)])] "k" = .error () :=
  ⟨walrus_getattr_returns_true.1 [("k", .pnum 5)] "k" (.pnum 5) rfl,
   walrus_getattr_returns_true.2.1 [("k", .pnum 5)] "k" (.pnum 5) rfl,
   walrus_getattr_returns_true.2.2.1 [] "z" rfl,
   walrus_getattr_returns_true.2.2.2.1 [("k", .pnum 5)] "k" (.pnum 5) rfl
     (fun h => PVal.noConfusion h),
   walrus_getattr_returns_true.2.2.2.2 [("d", .pdict [("k", .pnone)])] "k" rfl⟩

/-- `find?` over an appended list searches the first part first. -/
theorem assocP_append (l1 l2 : List (String × PVal)) (k : String)
    (h : assocP l1 k = none) : assocP (l1 ++ l2) k = assocP l2 k := by
  induction l1 with
  | nil => rfl
  | cons x xs ih =>
    unfold assocP at h ⊢
    rw [List.find?_cons] at h
    rw [List.cons_append, List.find?_cons]
    cases hx : (x.1 == k) with
    | true => rw [hx] at h; simp at h
    | false =>
      rw [hx] at h
      exact ih h

/-- The child-value loop of `FancyDict.get` distributes over appending. -/
theorem fdLoop_append (l1 l2 : List (String × PVal)) (k : String) :
    fdLoop (l1 ++ l2) k
      = match fdLoop l1 k with
        | some r => some r
        | none => fdLoop l2 k := by
  induction l1 with
  | nil => simp [fdLoop]
  | cons p xs ih =>
    obtain ⟨a, v⟩ := p
    rw [List.cons_append]
    cases hv : fdGetOpt v k with
    | some r => simp [fdLoop, hv]
    | none => simp [fdLoop, hv, ih]

/-- Claim C10, corrected: the "stored `None` behaves like an absent key"
property holds for `FancyDict` — its `get` skips the stored `None`, falls
through to the recursive child search and, when that search also fails,
returns the supplied default while attribute access raises
`AttributeError`.  It does NOT hold as stated for the other two classes:
`DotDict.get` is the plain dict `get` and returns the stored `None` rather
than the default (only attribute access treats the key as absent), and
`SearchableDict.get` raises `AttributeError` for an unfound string key
instead of returning the default unless `raise_` is `False`. -/
theorem fancy_stored_none_like_absent :
    (∀ (pre post : List (String × PVal)) (k : String),
        assocP pre k = none → assocP post k = none →
        fdGetOpt (.pdict (pre ++ (k, .pnone) :: post)) k
          = fdGetOpt (.pdict (pre ++ post)) k) ∧
    (∀ (es : List (String × PVal)) (k : String) (d : PVal),
        fdGetOpt (.pdict es) k = none →
        fdGet es k d = d ∧ fdGetattr es k = .error ()) := by
  constructor
  · intro pre post k h1 h2
    have ha : assocP (pre ++ (k, .pnone) :: post) k = some .pnone := by
      rw [assocP_append _ _ _ h1]
      simp [assocP]
    have hb : assocP (pre ++ post) k = assocP post k := assocP_append _ _ _ h1
    rw [fdGetOpt, fdGetOpt, ha, hb, h2]
    rw [fdLoop_append, fdLoop_append]
    cases hpre : fdLoop pre k with
    | some r => rfl
    | none => simp [fdLoop, fdGetOpt]
  · intro es k d h
    exact ⟨by simp [fdGet, h], by simp [fdGetattr, h]⟩

/-- Witness for C10's theorem: a stored `None` under `"k"` gives the same
recursive-search result as its absence (here the child container's value),
and an everywhere-missing key produces the default for `get` and an
`AttributeError` for attribute access. -/
theorem fancy_stored_none_like_absent_witness :
    fdGetOpt (.pdict ([("a", .pnum 1)] ++ ("k", PVal.pnone) :: [("c", .pdict [("k", .pnum 5)])])) "k"
      = fdGetOpt (.pdict ([("a", .pnum 1)] ++ [("c", .pdict [("k", .pnum 5)])])) "k" ∧
    (fdGet [("z", .pnone)] "q" (.pnum 7) = .pnum 7 ∧
      fdGetattr [("z", .pnone)] "q" = .error ()) :=
  ⟨fancy_stored_none_like_absent.1 [("a", .pnum 1)] [("c", .pdict [("k", .pnum 5)])] "k" rfl rfl,
   fancy_stored_none_like_absent.2 [("z", .pnone)] "q" (.pnum 7) rfl⟩

/-- Counterexample to claim C10 as stated: a `DotDict` key stored as `None`
IS distinguishable from an absent key through `get` — `get('k', 7)` returns
the stored `None`, not the supplied default — and `SearchableDict.get`
raises `AttributeError` for such a key instead of returning the default. -/
theorem stored_none_distinguishable_counterexample :
    ddGet [("k", .pnone)] "k" (.pnum 7) = .pnone ∧
    ddGet [] "k" (.pnum 7) = .pnum 7 ∧
    PVal.pnone ≠ PVal.pnum 7 ∧
    sdGet [("k", .pnone)] "k" true .pnone = .error () :=
  ⟨rfl, rfl, fun h => PVal.noConfusion h, rfl⟩

end Gzmo
